import Mathlib

/-!
Verification development for the gpu-server entity-recognition service.

The embedding translates `app/app_helper.py` (the partition / batch / zip
pipeline around the two NER models) and the request-validation logic of the
two HTTP handlers in `app/app.py`.  The model objects themselves
(spaCy / HuggingFace wrappers) are external libraries; they enter the
development as abstract function bundles.  The span DTO class comes from the
`ne_span` module, which is not part of this repository; it is modelled from
the spec, as marked on each such definition.
-/

/-- Modelled from the spec: the `ne_span` module (classes `NESpan`, `NEDoc`)
is not in the repository.  The spec describes a span as a contiguous
character range in text tagged with a label, and entities as simple DTOs
holding text span, label and offsets.  A span carries its document text,
character offsets and a label. -/
structure NESpan where
  docText : String
  startChar : Nat
  endChar : Nat
  label : String
deriving DecidableEq, Repr

/-- Modelled from the spec: the text covered by a span is the slice of the
document text between its character offsets. -/
def NESpan.text (s : NESpan) : String :=
  String.mk ((s.docText.toList.drop s.startChar).take (s.endChar - s.startChar))

/-- A JSON-like value, the codomain of serialization. -/
inductive JVal where
  | str : String → JVal
  | num : Nat → JVal
  | arr : List JVal → JVal
  | obj : List (String × JVal) → JVal

/-- A serialized entity is a JSON object, kept as an association list so that
key-insertion order is observable, as it is for a Python dict. -/
abbrev SerializedEntity := List (String × JVal)

/-- Modelled from the spec: `NESpan.serialize` is defined in the missing
`ne_span` module.  Per the data-model section the DTO fields are the span
offsets and label, with the span text included only on request
(`with_span_text`); nested parts are attached by the caller, not by
`serialize` itself. -/
def NESpan.serialize (s : NESpan) (with_span_text : Bool) : SerializedEntity :=
  [("start", JVal.num s.startChar), ("end", JVal.num s.endChar),
   ("label", JVal.str s.label)]
    ++ (if with_span_text then [("text", JVal.str s.text)] else [])

/-- `BATCH_SIZE = 150` from `app_helper.py`. -/
def BATCH_SIZE : Nat := 150

/-- `LABEL2TYPE` from `app_helper.py`, as an association list. -/
def LABEL2TYPE : List (String × String) :=
  [("מקור", "citation"), ("Citation", "citation")]

/-- `_partition_spans` from `app_helper.py`: the loop appends each span to
`cit_spans` when `LABEL2TYPE.get(span.label) == citation`, else to
`other_spans`. -/
def _partition_spans : List NESpan → List NESpan × List NESpan
  | [] => ([], [])
  | span :: rest =>
    let (cit_spans, other_spans) := _partition_spans rest
    if LABEL2TYPE.lookup span.label == some "citation" then
      (span :: cit_spans, other_spans)
    else
      (cit_spans, span :: other_spans)

/-- The two model wrappers implement the `AbstractNER` interface of
`named_entity_recognizer.py`: `predict`, `bulk_predict(texts, batch_size)`
and `bulk_predict_as_tuples(text__context, batch_size)`.  In the pipeline the
context values are input indices, so the context type is `Nat`. -/
structure NERModel where
  predict : String → List NESpan
  bulk_predict : List String → Nat → List (List NESpan)
  bulk_predict_as_tuples : List (String × Nat) → Nat → List (List NESpan × Nat)

/-- `_get_linker_entities` from `app_helper.py`. -/
def _get_linker_entities (text : String) (ner_model ref_part_model : NERModel) :
    List NESpan × List (List NESpan) × List NESpan :=
  let spans := ner_model.predict text
  let (cit_spans, other_spans) := _partition_spans spans
  let ref_part_input := cit_spans.map (fun span => span.text)
  let ref_parts := ref_part_model.bulk_predict ref_part_input BATCH_SIZE
  (cit_spans, ref_parts, other_spans)

/-- Python dict assignment `d[k] = v`: replace the value when the key is
present, else append the pair at the end. -/
def dictSet (d : SerializedEntity) (k : String) (v : JVal) : SerializedEntity :=
  if d.any (fun p => p.1 == k) then
    d.map (fun p => if p.1 == k then (k, v) else p)
  else
    d ++ [(k, v)]

/-- The result dict of `_serialize_linker_entities`. -/
structure EntitiesOutput where
  entities : List SerializedEntity

/-- `_serialize_linker_entities` from `app_helper.py`: serialize the other
spans first, then zip the citation spans with the ref-part lists, attaching
each list of serialized parts under the key `parts`. -/
def _serialize_linker_entities (cit_spans : List NESpan)
    (ref_parts_list : List (List NESpan)) (other_spans : List NESpan)
    (with_span_text : Bool) : EntitiesOutput :=
  let serial := other_spans.map (fun span => span.serialize with_span_text)
  let serial := serial ++ (cit_spans.zip ref_parts_list).map (fun p =>
    dictSet (p.1.serialize with_span_text) "parts"
      (JVal.arr (p.2.map (fun part => JVal.obj (part.serialize with_span_text)))))
  { entities := serial }

/-- `make_recognize_entities_output` from `app_helper.py`. -/
def make_recognize_entities_output (text : String)
    (ner_model ref_part_model : NERModel) (with_span_text : Bool) :
    EntitiesOutput :=
  let (cit_spans, ref_parts_list, other_spans) :=
    _get_linker_entities text ner_model ref_part_model
  _serialize_linker_entities cit_spans ref_parts_list other_spans with_span_text

/-- `_bulk_partition_spans` from `app_helper.py`. -/
def _bulk_partition_spans : List (List NESpan) →
    List (List NESpan) × List (List NESpan)
  | [] => ([], [])
  | spans :: rest =>
    let (inner_cit_spans, inner_other_spans) := _partition_spans spans
    let (cit_spans_list, other_spans_list) := _bulk_partition_spans rest
    (inner_cit_spans :: cit_spans_list, inner_other_spans :: other_spans_list)

/-- The `reduce` over `enumerate(cit_spans_list)` in
`_bulk_get_linker_entities`: each step appends the pairs
`(sub_b.text, b[0])` for the spans of the current text. -/
def _ref_part_input (cit_spans_list : List (List NESpan)) :
    List (String × Nat) :=
  (cit_spans_list.enum).foldl
    (fun a b => a ++ b.2.map (fun sub_b => (sub_b.text, b.1))) []

/-- The `defaultdict(list)` built by `_bulk_get_linker_entities`: the loop
appends, for each `(ref_part_span, input_idx)` pair in order, the span list
to the entry of `input_idx`; so an index maps to the sub-list of first
components whose tag equals it, in order, and an absent index maps to `[]`. -/
def rawRefPartSpanMap (all_raw_ref_part_spans : List (List NESpan × Nat))
    (input_idx : Nat) : List (List NESpan) :=
  (all_raw_ref_part_spans.filter (fun p => p.2 == input_idx)).map Prod.fst

/-- `_bulk_get_linker_entities` from `app_helper.py`. -/
def _bulk_get_linker_entities (texts : List String)
    (ner_model ref_part_model : NERModel) :
    List (List NESpan × List (List NESpan) × List NESpan) :=
  let spans_list := ner_model.bulk_predict texts BATCH_SIZE
  let (cit_spans_list, other_spans_list) := _bulk_partition_spans spans_list
  let ref_part_input := _ref_part_input cit_spans_list
  let all_raw_ref_part_spans :=
    ref_part_model.bulk_predict_as_tuples ref_part_input BATCH_SIZE
  ((cit_spans_list.zip other_spans_list).enum).map (fun p =>
    (p.2.1, rawRefPartSpanMap all_raw_ref_part_spans p.1, p.2.2))

/-- The result dict of `_bulk_serialize_linker_entities`. -/
structure BulkOutput where
  results : List EntitiesOutput

/-- `_bulk_serialize_linker_entities` from `app_helper.py`. -/
def _bulk_serialize_linker_entities
    (results : List (List NESpan × List (List NESpan) × List NESpan))
    (with_span_text : Bool) : BulkOutput :=
  { results := results.map (fun r =>
      _serialize_linker_entities r.1 r.2.1 r.2.2 with_span_text) }

/-- `make_bulk_recognize_entities_output` from `app_helper.py`. -/
def make_bulk_recognize_entities_output (texts : List String)
    (ner_model ref_part_model : NERModel) (with_span_text : Bool) :
    BulkOutput :=
  _bulk_serialize_linker_entities
    (_bulk_get_linker_entities texts ner_model ref_part_model) with_span_text

/-! ## The HTTP handlers of `app.py` -/

/-- A JSON value as produced by `request.get_json`, i.e. a Python object
limited to the JSON-representable shapes (numbers kept integral, which is
all the claims need). -/
inductive Py where
  | none : Py
  | bool : Bool → Py
  | int : Int → Py
  | str : String → Py
  | list : List Py → Py
  | dict : List (String × Py) → Py

/-- Python truthiness of a JSON value: `None`, `False`, `0`, the empty
string, list and dict are falsy, everything else truthy. -/
def truthy : Py → Bool
  | Py.none => false
  | Py.bool b => b
  | Py.int n => !(n == 0)
  | Py.str s => !(s == "")
  | Py.list l => !l.isEmpty
  | Py.dict d => !d.isEmpty

/-- Contiguous-sublist test on character lists, for the Python substring
semantics of `key in some_string`. -/
def pySubstr (needle : List Char) : List Char → Bool
  | [] => needle.isEmpty
  | c :: rest => List.isPrefixOf needle (c :: rest) || pySubstr needle rest

/-- Python `key in data` for a string key: key membership for a dict,
element equality for a list, substring test for a string, and a `TypeError`
for the remaining JSON shapes.  A string compares equal only to an equal
string. -/
def pyContains (key : String) : Py → Except Unit Bool
  | Py.dict d => Except.ok (d.any (fun p => p.1 == key))
  | Py.list l => Except.ok (l.any (fun e =>
      match e with
      | Py.str s => s == key
      | _ => false))
  | Py.str s => Except.ok (pySubstr key.toList s.toList)
  | _ => Except.error ()

/-- Python `data[key]` for a string key: dict lookup raising `KeyError` when
absent, `TypeError` on every other JSON shape. -/
def pyGetItem (d : Py) (key : String) : Except Unit Py :=
  match d with
  | Py.dict l =>
    match l.lookup key with
    | some v => Except.ok v
    | Option.none => Except.error ()
  | _ => Except.error ()

/-- What an endpoint handler produces, as far as the claims observe it: a
400 response with an error message, a 200 success (payload produced by the
`make_*` helpers, abstracted here), or an exception propagated unchanged out
of the handler. -/
inductive HResp where
  | badRequest : String → HResp
  | success : HResp
  | exn : HResp
deriving DecidableEq, Repr

/-- The request-validation and model-lookup prefix shared by the two
handlers of `app.py` (`recognize_entities` with key `text`,
`bulk_recognize_entities` with key `texts`): `request.get_json(silent=True)`
yields `none` on an unparseable body; `if not data or key not in data`
returns 400; then `data[lang_key]` with `lang_key = "lang"` is used to index
the model registry, whose keys are `langs`; any failure there is an
uncaught exception.  A non-string `lang` value also fails the registry
lookup (`KeyError` or `TypeError`), hence `exn`. -/
def handler_outcome (key : String) (data : Option Py) (langs : List String) :
    HResp :=
  match data with
  | Option.none => HResp.badRequest (missingMsg key)
  | some d =>
    if !(truthy d) then HResp.badRequest (missingMsg key)
    else
      match pyContains key d with
      | Except.error _ => HResp.exn
      | Except.ok b =>
        if !b then HResp.badRequest (missingMsg key)
        else
          match pyGetItem d "lang" with
          | Except.error _ => HResp.exn
          | Except.ok lang =>
            match lang with
            | Py.str s => if langs.contains s then HResp.success else HResp.exn
            | _ => HResp.exn
where
  /-- The 400 body, `{"error": "Missing 'key' in request body."}`. -/
  missingMsg (key : String) : String :=
    "Missing \x27" ++ key ++ "\x27 in request body."

/-- `POST /recognize-entities` from `app.py`, up to the observations the
claims make. -/
def recognize_entities (data : Option Py) (langs : List String) : HResp :=
  handler_outcome "text" data langs

/-- `POST /bulk-recognize-entities` from `app.py`, up to the observations
the claims make. -/
def bulk_recognize_entities (data : Option Py) (langs : List String) : HResp :=
  handler_outcome "texts" data langs

/-- `request.args.get(with_span_text, 0) == 1` from both handlers of
`app.py`: the query-string parameter, when absent, defaults to the string
`0`, and the flag is the comparison with the string `1`. -/
def parse_with_span_text (arg : Option String) : Bool :=
  (arg.getD "0") == "1"

/-! ## Call-logged variants of the pipeline

The two `_get_linker_entities` functions each contain exactly one call to a
method of `ref_part_model`.  The logged variants below repeat the source
line by line, emitting one log entry at each `ref_part_model` call site, so
that the number and arguments of the second-stage model invocations become
statable. -/

/-- One recorded invocation of a bulk method of `ref_part_model`. -/
inductive RPCall where
  | bulkPredict : List String → Nat → RPCall
  | bulkPredictAsTuples : List (String × Nat) → Nat → RPCall
deriving DecidableEq, Repr

/-- `_get_linker_entities`, with each `ref_part_model` call site logged. -/
def _get_linker_entities_logged (text : String)
    (ner_model ref_part_model : NERModel) :
    (List NESpan × List (List NESpan) × List NESpan) × List RPCall :=
  let spans := ner_model.predict text
  let (cit_spans, other_spans) := _partition_spans spans
  let ref_part_input := cit_spans.map (fun span => span.text)
  let ref_parts := ref_part_model.bulk_predict ref_part_input BATCH_SIZE
  ((cit_spans, ref_parts, other_spans),
   [RPCall.bulkPredict ref_part_input BATCH_SIZE])

/-- `_bulk_get_linker_entities`, with each `ref_part_model` call site
logged. -/
def _bulk_get_linker_entities_logged (texts : List String)
    (ner_model ref_part_model : NERModel) :
    List (List NESpan × List (List NESpan) × List NESpan) × List RPCall :=
  let spans_list := ner_model.bulk_predict texts BATCH_SIZE
  let (cit_spans_list, other_spans_list) := _bulk_partition_spans spans_list
  let ref_part_input := _ref_part_input cit_spans_list
  let all_raw_ref_part_spans :=
    ref_part_model.bulk_predict_as_tuples ref_part_input BATCH_SIZE
  (((cit_spans_list.zip other_spans_list).enum).map (fun p =>
      (p.2.1, rawRefPartSpanMap all_raw_ref_part_spans p.1, p.2.2)),
   [RPCall.bulkPredictAsTuples ref_part_input BATCH_SIZE])

/-! ## Helper lemmas about the pipeline -/

/-- The predicate `_partition_spans` tests: the span label maps to the
citation type. -/
def isCitSpan (s : NESpan) : Bool :=
  LABEL2TYPE.lookup s.label == some "citation"

lemma isCitSpan_iff (s : NESpan) :
    isCitSpan s = (s.label == "מקור" || s.label == "Citation") := by
  simp only [isCitSpan, LABEL2TYPE, List.lookup]
  cases hb1 : s.label == "מקור" <;> cases hb2 : s.label == "Citation" <;>
    simp [hb1, hb2]

lemma partition_spans_cons (s : NESpan) (rest : List NESpan) :
    _partition_spans (s :: rest)
      = if isCitSpan s
        then (s :: (_partition_spans rest).1, (_partition_spans rest).2)
        else ((_partition_spans rest).1, s :: (_partition_spans rest).2) := by
  cases hpr : _partition_spans rest with
  | mk c o => simp [_partition_spans, hpr, isCitSpan]

lemma partition_spans_eq_filter (spans : List NESpan) :
    _partition_spans spans
      = (spans.filter isCitSpan, spans.filter (fun s => !(isCitSpan s))) := by
  induction spans with
  | nil => rfl
  | cons s rest ih =>
    rw [partition_spans_cons, ih]
    cases h : isCitSpan s <;> simp [List.filter_cons, h]

/-- The flattened second-stage input, written as structural recursion with an
explicit starting index: for each text, one pair per citation span holding
the span text and the index of its text, texts in order. -/
def flatRefInput (n : Nat) : List (List NESpan) → List (String × Nat)
  | [] => []
  | c :: cs => c.map (fun s => (s.text, n)) ++ flatRefInput (n + 1) cs

lemma ref_part_input_foldl (cs : List (List NESpan)) :
    ∀ (n : Nat) (init : List (String × Nat)),
      (List.enumFrom n cs).foldl
        (fun a b => a ++ b.2.map (fun sub_b => (sub_b.text, b.1))) init
      = init ++ flatRefInput n cs := by
  induction cs with
  | nil => intro n init; simp [flatRefInput]
  | cons c cs ih =>
    intro n init
    simp only [List.enumFrom, List.foldl_cons]
    rw [ih]
    simp [flatRefInput]

lemma ref_part_input_eq (citL : List (List NESpan)) :
    _ref_part_input citL = flatRefInput 0 citL := by
  have h := ref_part_input_foldl citL 0 []
  simpa [_ref_part_input, List.enum] using h

lemma flatRefInput_length (citL : List (List NESpan)) :
    ∀ n, (flatRefInput n citL).length = (citL.map List.length).sum := by
  induction citL with
  | nil => intro n; simp [flatRefInput]
  | cons c cs ih => intro n; simp [flatRefInput, ih]

lemma flatRefInput_snd_ge (citL : List (List NESpan)) :
    ∀ n, ∀ p ∈ flatRefInput n citL, n ≤ p.2 := by
  induction citL with
  | nil => intro n p hp; simp [flatRefInput] at hp
  | cons c cs ih =>
    intro n p hp
    simp only [flatRefInput, List.mem_append, List.mem_map] at hp
    rcases hp with ⟨s, _, rfl⟩ | h2
    · exact Nat.le_refl n
    · exact Nat.le_of_succ_le (ih (n + 1) p h2)

lemma bulk_partition_spans_eq (sl : List (List NESpan)) :
    _bulk_partition_spans sl
      = (sl.map (fun s => (_partition_spans s).1),
         sl.map (fun s => (_partition_spans s).2)) := by
  induction sl with
  | nil => rfl
  | cons spans rest ih =>
    cases hp : _partition_spans spans with
    | mk c o => simp [_bulk_partition_spans, hp, ih]

/-- Split a flat list of results into consecutive chunks whose lengths
follow the per-text citation-span counts. -/
def chunksBy {α β : Type} : List (List α) → List β → List (List β)
  | [], _ => []
  | c :: cs, rs => rs.take c.length :: chunksBy cs (rs.drop c.length)

/-- Re-tag a flat result list with the context values of the corresponding
input pairs, positionally. -/
def zipTag (input : List (String × Nat)) (res : List (List NESpan)) :
    List (List NESpan × Nat) :=
  List.zipWith (fun p r => (r, p.2)) input res

lemma zipTag_snd_mem (input : List (String × Nat)) :
    ∀ (res : List (List NESpan)), ∀ q ∈ zipTag input res, ∃ p ∈ input, q.2 = p.2 := by
  induction input with
  | nil => intro res q hq; simp [zipTag] at hq
  | cons p ps ih =>
    intro res q hq
    cases res with
    | nil => simp [zipTag] at hq
    | cons r rs =>
      simp only [zipTag, List.zipWith_cons_cons, List.mem_cons] at hq
      rcases hq with rfl | hq
      · exact ⟨p, List.mem_cons_self _ _, rfl⟩
      · rcases ih rs q hq with ⟨p2, hp2, hq2⟩
        exact ⟨p2, List.mem_cons_of_mem _ hp2, hq2⟩

lemma zipTag_map_fst (input : List (String × Nat)) :
    ∀ (res : List (List NESpan)), res.length ≤ input.length →
      (zipTag input res).map Prod.fst = res := by
  induction input with
  | nil =>
    intro res h
    have : res = [] := List.length_eq_zero.mp (Nat.le_zero.mp h)
    subst this; rfl
  | cons p ps ih =>
    intro res h
    cases res with
    | nil => rfl
    | cons r rs =>
      simp only [zipTag, List.zipWith_cons_cons, List.map_cons]
      have hr := ih rs (Nat.le_of_succ_le_succ h)
      simp only [zipTag] at hr
      rw [hr]

lemma zipTag_append (i1 i2 : List (String × Nat)) (res : List (List NESpan))
    (h : i1.length ≤ res.length) :
    zipTag (i1 ++ i2) res
      = zipTag i1 (res.take i1.length) ++ zipTag i2 (res.drop i1.length) := by
  unfold zipTag
  conv_lhs => rw [← List.take_append_drop i1.length res]
  rw [List.zipWith_append]
  rw [List.length_take]
  exact (Nat.min_eq_left h).symm

lemma rawMap_append (l1 l2 : List (List NESpan × Nat)) (i : Nat) :
    rawRefPartSpanMap (l1 ++ l2) i
      = rawRefPartSpanMap l1 i ++ rawRefPartSpanMap l2 i := by
  simp [rawRefPartSpanMap, List.filter_append]

lemma rawMap_all_eq (l : List (List NESpan × Nat)) (n : Nat)
    (h : ∀ p ∈ l, p.2 = n) : rawRefPartSpanMap l n = l.map Prod.fst := by
  unfold rawRefPartSpanMap
  rw [List.filter_eq_self.mpr]
  intro p hp
  simp [h p hp]

lemma rawMap_none (l : List (List NESpan × Nat)) (i : Nat)
    (h : ∀ p ∈ l, p.2 ≠ i) : rawRefPartSpanMap l i = [] := by
  unfold rawRefPartSpanMap
  rw [List.filter_eq_nil_iff.mpr]
  · rfl
  · intro p hp
    simp [h p hp]

lemma rawMap_zipTag_flat (citL : List (List NESpan)) :
    ∀ (n : Nat) (res : List (List NESpan)),
      res.length = (flatRefInput n citL).length →
      ∀ i, i < citL.length →
        rawRefPartSpanMap (zipTag (flatRefInput n citL) res) (n + i)
          = (chunksBy citL res).getD i [] := by
  induction citL with
  | nil =>
    intro n res _ i hi
    exact absurd hi (Nat.not_lt_zero i)
  | cons c cs ih =>
    intro n res hlen i hi
    have hlen1 : (c.map (fun s => (s.text, n))).length = c.length :=
      List.length_map _ _
    have hcle : c.length ≤ res.length := by
      rw [hlen]
      simp [flatRefInput]
    have hsplit :
        zipTag (flatRefInput n (c :: cs)) res
          = zipTag (c.map (fun s => (s.text, n))) (res.take c.length)
            ++ zipTag (flatRefInput (n + 1) cs) (res.drop c.length) := by
      show zipTag (c.map (fun s => (s.text, n)) ++ flatRefInput (n + 1) cs) res
            = _
      rw [zipTag_append _ _ _ (by rw [hlen1]; exact hcle), hlen1]
    have hfirst_snd : ∀ q ∈ zipTag (c.map (fun s => (s.text, n)))
        (res.take c.length), q.2 = n := by
      intro q hq
      rcases zipTag_snd_mem _ _ q hq with ⟨p, hp, hq2⟩
      rcases List.mem_map.mp hp with ⟨s, _, rfl⟩
      exact hq2
    rw [hsplit, rawMap_append]
    cases i with
    | zero =>
      have h1 : rawRefPartSpanMap (zipTag (c.map (fun s => (s.text, n)))
          (res.take c.length)) (n + 0) = res.take c.length := by
        rw [Nat.add_zero]
        rw [rawMap_all_eq _ _ hfirst_snd]
        apply zipTag_map_fst
        rw [hlen1, List.length_take]
        exact Nat.min_le_left _ _
      have h2 : rawRefPartSpanMap (zipTag (flatRefInput (n + 1) cs)
          (res.drop c.length)) (n + 0) = [] := by
        apply rawMap_none
        intro q hq
        rcases zipTag_snd_mem _ _ q hq with ⟨p, hp, hq2⟩
        have := flatRefInput_snd_ge cs (n + 1) p hp
        omega
      rw [h1, h2, List.append_nil]
      rfl
    | succ j =>
      have h1 : rawRefPartSpanMap (zipTag (c.map (fun s => (s.text, n)))
          (res.take c.length)) (n + (j + 1)) = [] := by
        apply rawMap_none
        intro q hq
        rw [hfirst_snd q hq]
        omega
      have hlen2 : (res.drop c.length).length
          = (flatRefInput (n + 1) cs).length := by
        rw [List.length_drop, hlen]
        simp [flatRefInput]
      have h2 := ih (n + 1) (res.drop c.length) hlen2 j
        (Nat.lt_of_succ_lt_succ hi)
      rw [h1, List.nil_append]
      rw [show n + (j + 1) = (n + 1) + j by omega, h2]
      rfl

lemma eq_zipTag_of_aligned (input : List (String × Nat)) :
    ∀ (out : List (List NESpan × Nat)),
      out.length = input.length →
      (∀ k, k < out.length →
        (out.getD k ([], 0)).2 = (input.getD k ("", 0)).2) →
      out = zipTag input (out.map Prod.fst) := by
  induction input with
  | nil =>
    intro out hlen _
    have : out = [] := List.length_eq_zero.mp hlen
    subst this; rfl
  | cons p ps ih =>
    intro out hlen hsnd
    cases out with
    | nil => simp at hlen
    | cons q qs =>
      have h0 : q.2 = p.2 := by
        have := hsnd 0 (by simp)
        simpa using this
      have htail : qs = zipTag ps (qs.map Prod.fst) := by
        apply ih
        · simpa using hlen
        · intro k hk
          have := hsnd (k + 1) (by simpa using Nat.succ_lt_succ hk)
          simpa using this
      have hq : q = (q.1, p.2) := by
        cases q with
        | mk a b => simpa using h0
      calc q :: qs = (q.1, p.2) :: zipTag ps (qs.map Prod.fst) := by
            rw [← hq, ← htail]
        _ = zipTag (p :: ps) ((q :: qs).map Prod.fst) := by
            simp [zipTag]

lemma enumFrom_map_getD {α β : Type} (l : List α) (f : Nat × α → β)
    (dA : α) (dB : β) :
    ∀ (n i : Nat), i < l.length →
      (((List.enumFrom n l).map f).getD i dB) = f (n + i, l.getD i dA) := by
  induction l with
  | nil => intro n i hi; simp at hi
  | cons a rest ih =>
    intro n i hi
    cases i with
    | zero => simp [List.enumFrom]
    | succ j =>
      have hj : j < rest.length := Nat.lt_of_succ_lt_succ hi
      have := ih (n + 1) j hj
      simp only [List.enumFrom, List.map_cons, List.getD_cons_succ]
      rw [this, show n + (j + 1) = (n + 1) + j by omega]

lemma zip_getD {α β : Type} (l1 : List α) :
    ∀ (l2 : List β) (i : Nat) (d1 : α) (d2 : β),
      i < l1.length → i < l2.length →
      ((l1.zip l2).getD i (d1, d2)) = (l1.getD i d1, l2.getD i d2) := by
  induction l1 with
  | nil => intro l2 i d1 d2 h1 _; simp at h1
  | cons a r1 ih =>
    intro l2 i d1 d2 h1 h2
    cases l2 with
    | nil => simp at h2
    | cons b r2 =>
      cases i with
      | zero => simp
      | succ j =>
        simp only [List.zip_cons_cons, List.getD_cons_succ]
        exact ih r2 j d1 d2 (Nat.lt_of_succ_lt_succ h1)
          (Nat.lt_of_succ_lt_succ h2)

lemma enum_map_length {α β : Type} (l : List α) (f : Nat × α → β) :
    ((l.enum).map f).length = l.length := by
  simp

/-- The span lists the first-stage model returns for a bulk request. -/
def nerSpansList (texts : List String) (ner_model : NERModel) :
    List (List NESpan) :=
  ner_model.bulk_predict texts BATCH_SIZE

/-- The per-text citation spans of a bulk request. -/
def citSpansListOf (texts : List String) (ner_model : NERModel) :
    List (List NESpan) :=
  (_bulk_partition_spans (nerSpansList texts ner_model)).1

/-- The per-text non-citation spans of a bulk request. -/
def otherSpansListOf (texts : List String) (ner_model : NERModel) :
    List (List NESpan) :=
  (_bulk_partition_spans (nerSpansList texts ner_model)).2

/-- The raw tagged output of the second-stage model in the bulk pipeline. -/
def rpRawOut (texts : List String) (ner_model ref_part_model : NERModel) :
    List (List NESpan × Nat) :=
  ref_part_model.bulk_predict_as_tuples
    (_ref_part_input (citSpansListOf texts ner_model)) BATCH_SIZE

lemma bulk_get_eq (texts : List String) (ner_model ref_part_model : NERModel) :
    _bulk_get_linker_entities texts ner_model ref_part_model
      = (((citSpansListOf texts ner_model).zip
            (otherSpansListOf texts ner_model)).enum).map
          (fun p => (p.2.1,
            rawRefPartSpanMap (rpRawOut texts ner_model ref_part_model) p.1,
            p.2.2)) := by
  unfold _bulk_get_linker_entities
  cases h : _bulk_partition_spans (ner_model.bulk_predict texts BATCH_SIZE) with
  | mk cl ol =>
    simp [h, citSpansListOf, otherSpansListOf, nerSpansList, rpRawOut]

lemma citSpansListOf_length (texts : List String) (ner_model : NERModel)
    (hNer : (ner_model.bulk_predict texts BATCH_SIZE).length = texts.length) :
    (citSpansListOf texts ner_model).length = texts.length := by
  unfold citSpansListOf nerSpansList
  rw [bulk_partition_spans_eq]
  simpa using hNer

lemma otherSpansListOf_length (texts : List String) (ner_model : NERModel)
    (hNer : (ner_model.bulk_predict texts BATCH_SIZE).length = texts.length) :
    (otherSpansListOf texts ner_model).length = texts.length := by
  unfold otherSpansListOf nerSpansList
  rw [bulk_partition_spans_eq]
  simpa using hNer

lemma rawMap_eq_chunks (texts : List String)
    (ner_model ref_part_model : NERModel)
    (hNer : (ner_model.bulk_predict texts BATCH_SIZE).length = texts.length)
    (hLen : (rpRawOut texts ner_model ref_part_model).length
      = (_ref_part_input (citSpansListOf texts ner_model)).length)
    (hCtx : ∀ k, k < (rpRawOut texts ner_model ref_part_model).length →
      ((rpRawOut texts ner_model ref_part_model).getD k ([], 0)).2
        = ((_ref_part_input (citSpansListOf texts ner_model)).getD
            k ("", 0)).2)
    (i : Nat) (hi : i < texts.length) :
    rawRefPartSpanMap (rpRawOut texts ner_model ref_part_model) i
      = (chunksBy (citSpansListOf texts ner_model)
          ((rpRawOut texts ner_model ref_part_model).map Prod.fst)).getD
            i [] := by
  have hinput : _ref_part_input (citSpansListOf texts ner_model)
      = flatRefInput 0 (citSpansListOf texts ner_model) :=
    ref_part_input_eq _
  have hout := eq_zipTag_of_aligned (_ref_part_input (citSpansListOf texts
    ner_model)) (rpRawOut texts ner_model ref_part_model) hLen hCtx
  rw [hinput] at hout
  have hreslen : ((rpRawOut texts ner_model ref_part_model).map
      Prod.fst).length = (flatRefInput 0 (citSpansListOf texts
        ner_model)).length := by
    rw [List.length_map, hLen, hinput]
  have hi2 : i < (citSpansListOf texts ner_model).length := by
    rw [citSpansListOf_length texts ner_model hNer]
    exact hi
  have hmain := rawMap_zipTag_flat (citSpansListOf texts ner_model) 0
    ((rpRawOut texts ner_model ref_part_model).map Prod.fst) hreslen i hi2
  rw [Nat.zero_add] at hmain
  calc rawRefPartSpanMap (rpRawOut texts ner_model ref_part_model) i
      = rawRefPartSpanMap (zipTag (flatRefInput 0 (citSpansListOf texts
          ner_model)) ((rpRawOut texts ner_model ref_part_model).map
            Prod.fst)) i := by rw [← hout]
    _ = (chunksBy (citSpansListOf texts ner_model) ((rpRawOut texts
          ner_model ref_part_model).map Prod.fst)).getD i [] := hmain

/-- C2: assuming the first-stage bulk call returns one span list per input
text in input order, and the second-stage tagged bulk call returns one
result per input pair in input order with each context value unchanged,
the bulk output has exactly one result per text, in text order, and the
result for text `i` pairs its citation spans, in order, with the chunk of
second-stage outputs produced for the flattened inputs of text `i`. -/
theorem claim_C2_bulk_alignment (texts : List String)
    (ner_model ref_part_model : NERModel) (with_span_text : Bool)
    (hNer : (ner_model.bulk_predict texts BATCH_SIZE).length = texts.length)
    (hLen : (rpRawOut texts ner_model ref_part_model).length
      = (_ref_part_input (citSpansListOf texts ner_model)).length)
    (hCtx : ∀ k, k < (rpRawOut texts ner_model ref_part_model).length →
      ((rpRawOut texts ner_model ref_part_model).getD k ([], 0)).2
        = ((_ref_part_input (citSpansListOf texts ner_model)).getD
            k ("", 0)).2) :
    (make_bulk_recognize_entities_output texts ner_model ref_part_model
        with_span_text).results.length = texts.length
    ∧ ∀ i, i < texts.length →
      (make_bulk_recognize_entities_output texts ner_model ref_part_model
          with_span_text).results.getD i ⟨[]⟩
        = _serialize_linker_entities
            ((citSpansListOf texts ner_model).getD i [])
            ((chunksBy (citSpansListOf texts ner_model)
                ((rpRawOut texts ner_model ref_part_model).map
                  Prod.fst)).getD i [])
            ((otherSpansListOf texts ner_model).getD i [])
            with_span_text := by
  have hres : (make_bulk_recognize_entities_output texts ner_model
        ref_part_model with_span_text).results
      = ((List.enumFrom 0 ((citSpansListOf texts ner_model).zip
            (otherSpansListOf texts ner_model))).map
          (fun p => _serialize_linker_entities p.2.1
            (rawRefPartSpanMap (rpRawOut texts ner_model ref_part_model) p.1)
            p.2.2 with_span_text)) := by
    unfold make_bulk_recognize_entities_output _bulk_serialize_linker_entities
    rw [bulk_get_eq, List.map_map]
    rfl
  have hcit := citSpansListOf_length texts ner_model hNer
  have hoth := otherSpansListOf_length texts ner_model hNer
  have hzip : ((citSpansListOf texts ner_model).zip
      (otherSpansListOf texts ner_model)).length = texts.length := by
    rw [List.length_zip, hcit, hoth, Nat.min_self]
  constructor
  · rw [hres, List.length_map, List.enumFrom_length, hzip]
  · intro i hi
    have hi2 : i < ((citSpansListOf texts ner_model).zip
        (otherSpansListOf texts ner_model)).length := by
      rw [hzip]; exact hi
    have hget := enumFrom_map_getD
      ((citSpansListOf texts ner_model).zip (otherSpansListOf texts
        ner_model))
      (fun p => _serialize_linker_entities p.2.1
        (rawRefPartSpanMap (rpRawOut texts ner_model ref_part_model) p.1)
        p.2.2 with_span_text)
      (([], [])) ⟨[]⟩ 0 i hi2
    rw [hres, hget, Nat.zero_add,
      zip_getD _ _ _ _ _ (by rw [hcit]; exact hi) (by rw [hoth]; exact hi)]
    simp only [rawMap_eq_chunks texts ner_model ref_part_model hNer hLen hCtx
      i hi]

/-! ## Serialization helpers -/

/-- A key is present in a serialized entity. -/
def hasKey (d : SerializedEntity) (k : String) : Bool :=
  d.any (fun p => p.1 == k)

lemma serialize_no_parts (s : NESpan) (w : Bool) :
    hasKey (s.serialize w) "parts" = false := by
  cases w <;> rfl

lemma serialize_has_text_iff (s : NESpan) (w : Bool) :
    hasKey (s.serialize w) "text" = w := by
  cases w <;> rfl

lemma dictSet_fresh (d : SerializedEntity) (k : String) (v : JVal)
    (h : hasKey d k = false) : dictSet d k v = d ++ [(k, v)] := by
  unfold dictSet
  rw [show d.any (fun p => p.1 == k) = hasKey d k from rfl, h]
  simp

lemma serialize_entities_eq (cit_spans : List NESpan)
    (ref_parts_list : List (List NESpan)) (other_spans : List NESpan)
    (w : Bool) :
    (_serialize_linker_entities cit_spans ref_parts_list other_spans
        w).entities
      = other_spans.map (fun s => s.serialize w)
        ++ (cit_spans.zip ref_parts_list).map (fun p =>
          p.1.serialize w ++ [("parts", JVal.arr (p.2.map (fun part =>
            JVal.obj (part.serialize w))))]) := by
  unfold _serialize_linker_entities
  simp only [List.append_cancel_left_eq]
  apply List.map_congr_left
  intro p _
  rw [dictSet_fresh _ _ _ (serialize_no_parts p.1 w)]

lemma partition_count (spans : List NESpan) (s : NESpan) :
    (_partition_spans spans).1.count s + (_partition_spans spans).2.count s
      = spans.count s := by
  induction spans with
  | nil => rfl
  | cons a rest ih =>
    rw [partition_spans_cons]
    cases hc : isCitSpan a <;> cases hb : a == s <;>
      simp only [Bool.false_eq_true, if_false, if_true, List.count_cons, hb] <;>
      omega

/-- C3: `_partition_spans` sends a span to the citation side exactly when its
label is one of the two labels `LABEL2TYPE` maps to `citation`, keeps each
side in input order (both sides are filters of the input), and every input
span lands in exactly one side exactly once (counts add up). -/
theorem claim_C3_partition (spans : List NESpan) :
    _partition_spans spans
      = (spans.filter (fun s => s.label == "מקור" || s.label == "Citation"),
         spans.filter (fun s =>
           !(s.label == "מקור" || s.label == "Citation")))
    ∧ ∀ s : NESpan,
        (_partition_spans spans).1.count s
          + (_partition_spans spans).2.count s = spans.count s := by
  have hfun : isCitSpan
      = fun s : NESpan => (s.label == "מקור" || s.label == "Citation") :=
    funext isCitSpan_iff
  refine ⟨?_, fun s => partition_count spans s⟩
  rw [partition_spans_eq_filter, hfun]

/-- C6: the serialized output has one entity per other span plus one per
zipped (citation span, ref-part list) pair, i.e.
`len(other) + min(len(cit), len(ref_parts))`; excess citation spans beyond
the ref-parts list are dropped by the zip. -/
theorem claim_C6_entity_count (cit_spans : List NESpan)
    (ref_parts_list : List (List NESpan)) (other_spans : List NESpan)
    (w : Bool) :
    (_serialize_linker_entities cit_spans ref_parts_list other_spans
        w).entities.length
      = other_spans.length + min cit_spans.length ref_parts_list.length := by
  rw [serialize_entities_eq]
  simp [List.length_zip]

/-- The label field of a serialized entity. -/
def labelOf (d : SerializedEntity) : String :=
  match d.lookup "label" with
  | some (JVal.str s) => s
  | _ => ""

/-- A citation-labelled span used by the C1 counterexample. -/
def spanC1cit : NESpan :=
  { docText := "ab", startChar := 0, endChar := 1, label := "Citation" }

/-- A person-labelled span used by the C1 counterexample. -/
def spanC1per : NESpan :=
  { docText := "ab", startChar := 1, endChar := 2, label := "person" }

/-- A first-stage model whose output puts a citation span before a
non-citation span. -/
def nerC1 : NERModel :=
  { predict := fun _ => [spanC1cit, spanC1per],
    bulk_predict := fun _ _ => [],
    bulk_predict_as_tuples := fun _ _ => [] }

/-- A second-stage model returning one empty part list per input. -/
def rpC1 : NERModel :=
  { predict := fun _ => [],
    bulk_predict := fun input _ => input.map (fun _ => []),
    bulk_predict_as_tuples := fun _ _ => [] }

/-- C1 (counterexample): when the NER model returns a citation span followed
by a person span, the first output entity is the person span, so position
`i` of the entities list does not correspond to position `i` of the model
output. -/
theorem claim_C1_counterexample :
    ((make_recognize_entities_output "ab" nerC1 rpC1 false).entities.map
        labelOf)
      ≠ ((nerC1.predict "ab").map (fun s => s.label)) := by
  decide

/-- C1 (amended): the entities list does not preserve model-output positions;
instead it lists the non-citation spans first, in their model-output order,
followed by the citation spans in their model-output order, each zipped with
its ref-part list and carrying a `parts` key. -/
theorem claim_C1_amended (text : String) (ner_model ref_part_model : NERModel)
    (w : Bool) :
    (make_recognize_entities_output text ner_model ref_part_model w).entities
      = ((ner_model.predict text).filter (fun s => !(isCitSpan s))).map
          (fun s => s.serialize w)
        ++ ((((ner_model.predict text).filter isCitSpan).zip
              (ref_part_model.bulk_predict
                (((ner_model.predict text).filter isCitSpan).map
                  (fun s => s.text)) BATCH_SIZE)).map
            (fun p => p.1.serialize w ++ [("parts", JVal.arr (p.2.map
              (fun part => JVal.obj (part.serialize w))))])) := by
  unfold make_recognize_entities_output _get_linker_entities
  simp only [serialize_entities_eq, partition_spans_eq_filter]

/-- C8: in the serialized output the first block is the non-citation spans,
each serialized by `serialize` alone and carrying no `parts` key, and the
remaining block is the zipped citation spans, each carrying a `parts` key
holding the list of its serialized reference-part sub-spans. -/
theorem claim_C8_parts_marking (cit_spans : List NESpan)
    (ref_parts_list : List (List NESpan)) (other_spans : List NESpan)
    (w : Bool) :
    ((_serialize_linker_entities cit_spans ref_parts_list other_spans
        w).entities.take other_spans.length
      = other_spans.map (fun s => s.serialize w))
    ∧ (∀ d ∈ (_serialize_linker_entities cit_spans ref_parts_list other_spans
        w).entities.take other_spans.length, hasKey d "parts" = false)
    ∧ ((_serialize_linker_entities cit_spans ref_parts_list other_spans
        w).entities.drop other_spans.length
      = (cit_spans.zip ref_parts_list).map (fun p =>
          p.1.serialize w ++ [("parts", JVal.arr (p.2.map (fun part =>
            JVal.obj (part.serialize w))))]))
    ∧ (∀ d ∈ (_serialize_linker_entities cit_spans ref_parts_list other_spans
        w).entities.drop other_spans.length,
        d.lookup "parts" ≠ Option.none) := by
  have he := serialize_entities_eq cit_spans ref_parts_list other_spans w
  have hlen : (other_spans.map (fun s => s.serialize w)).length
      = other_spans.length := List.length_map _ _
  have htake : (_serialize_linker_entities cit_spans ref_parts_list
      other_spans w).entities.take other_spans.length
      = other_spans.map (fun s => s.serialize w) := by
    rw [he, ← hlen, List.take_left]
  have hdrop : (_serialize_linker_entities cit_spans ref_parts_list
      other_spans w).entities.drop other_spans.length
      = (cit_spans.zip ref_parts_list).map (fun p =>
          p.1.serialize w ++ [("parts", JVal.arr (p.2.map (fun part =>
            JVal.obj (part.serialize w))))]) := by
    rw [he, ← hlen, List.drop_left]
  refine ⟨htake, ?_, hdrop, ?_⟩
  · intro d hd
    rw [htake] at hd
    rcases List.mem_map.mp hd with ⟨s, _, rfl⟩
    exact serialize_no_parts s w
  · intro d hd
    rw [hdrop] at hd
    rcases List.mem_map.mp hd with ⟨p, _, rfl⟩
    cases w <;> simp [NESpan.serialize, List.lookup]

/-- C5: in both pipelines the second-stage model is invoked exactly once,
via a bulk call with batch size 150 (`BATCH_SIZE`); the single-path input
has one string (the span text) per citation span in order, and the
bulk-path input has one `(span text, text index)` pair per citation span,
flattened by text index and then span order, with one entry per citation
span in total. -/
theorem claim_C5_single_batched_call (text : String) (texts : List String)
    (ner_model ref_part_model : NERModel) :
    BATCH_SIZE = 150
    ∧ (_get_linker_entities_logged text ner_model ref_part_model).2
      = [RPCall.bulkPredict
          (((_partition_spans (ner_model.predict text)).1).map
            (fun s => s.text)) 150]
    ∧ (_get_linker_entities_logged text ner_model ref_part_model).1
      = _get_linker_entities text ner_model ref_part_model
    ∧ (_bulk_get_linker_entities_logged texts ner_model ref_part_model).2
      = [RPCall.bulkPredictAsTuples
          (flatRefInput 0 (citSpansListOf texts ner_model)) 150]
    ∧ (_bulk_get_linker_entities_logged texts ner_model ref_part_model).1
      = _bulk_get_linker_entities texts ner_model ref_part_model
    ∧ (flatRefInput 0 (citSpansListOf texts ner_model)).length
      = ((citSpansListOf texts ner_model).map List.length).sum := by
  refine ⟨rfl, ?_, ?_, ?_, ?_, flatRefInput_length _ 0⟩
  · unfold _get_linker_entities_logged
    cases h : _partition_spans (ner_model.predict text) with
    | mk c o => simp [h, BATCH_SIZE]
  · unfold _get_linker_entities_logged _get_linker_entities
    cases h : _partition_spans (ner_model.predict text) with
    | mk c o => simp [h]
  · unfold _bulk_get_linker_entities_logged
    cases h : _bulk_partition_spans (ner_model.bulk_predict texts
      BATCH_SIZE) with
    | mk cl ol =>
      have hcl : citSpansListOf texts ner_model = cl := by
        unfold citSpansListOf nerSpansList
        rw [h]
      simp only [h]
      rw [hcl, ← ref_part_input_eq]
      rfl
  · unfold _bulk_get_linker_entities_logged _bulk_get_linker_entities
    cases h : _bulk_partition_spans (ner_model.bulk_predict texts
      BATCH_SIZE) with
    | mk cl ol => simp [h]

/-- C7: under determinism of the second-stage model (one function `R` gives
each text its prediction, with bulk calls mapping it over the inputs in
order and tagged calls leaving contexts unchanged), and with the first-stage
bulk call on a singleton agreeing with its single-text call, the bulk
pipeline on `[t]` produces exactly the single-pipeline result wrapped in a
one-element results list. -/
theorem claim_C7_singleton_equiv (t : String)
    (ner_model ref_part_model : NERModel) (w : Bool)
    (hner : ner_model.bulk_predict [t] BATCH_SIZE = [ner_model.predict t])
    (hrp : ∃ R : String → List NESpan,
      (∀ ts b, ref_part_model.bulk_predict ts b = ts.map R) ∧
      (∀ ps b, ref_part_model.bulk_predict_as_tuples ps b
        = ps.map (fun p => (R p.1, p.2)))) :
    make_bulk_recognize_entities_output [t] ner_model ref_part_model w
      = { results :=
          [make_recognize_entities_output t ner_model ref_part_model w] } := by
  obtain ⟨R, hR1, hR2⟩ := hrp
  cases hp : _partition_spans (ner_model.predict t) with
  | mk cit other =>
    have hbp : _bulk_partition_spans [ner_model.predict t]
        = ([cit], [other]) := by
      rw [bulk_partition_spans_eq]
      simp [hp]
    have hinput : _ref_part_input [cit]
        = cit.map (fun s => (s.text, 0)) := by
      rw [ref_part_input_eq]
      simp [flatRefInput]
    have hout : ref_part_model.bulk_predict_as_tuples (_ref_part_input [cit])
        BATCH_SIZE = cit.map (fun s => (R s.text, 0)) := by
      rw [hinput, hR2, List.map_map]
      rfl
    have hraw : rawRefPartSpanMap (cit.map (fun s => (R s.text, 0))) 0
        = cit.map (fun s => R s.text) := by
      rw [rawMap_all_eq]
      · rw [List.map_map]
        rfl
      · intro p hp2
        rcases List.mem_map.mp hp2 with ⟨s, _, rfl⟩
        rfl
    have hsingle : ref_part_model.bulk_predict
        (cit.map (fun span => span.text)) BATCH_SIZE
        = cit.map (fun s => R s.text) := by
      rw [hR1, List.map_map]
      rfl
    unfold make_bulk_recognize_entities_output _bulk_get_linker_entities
      _bulk_serialize_linker_entities make_recognize_entities_output
      _get_linker_entities
    simp only [hner, hbp, hinput, hout, hp, hsingle]
    simp [List.enum, List.enumFrom, hraw]
    have hcomp : ref_part_model.bulk_predict_as_tuples
        (List.map (fun s => (s.text, 0)) cit) BATCH_SIZE
        = List.map (fun s => (R s.text, 0)) cit := by
      rw [hR2, List.map_map]
      rfl
    rw [hcomp, hraw]

lemma cit_other_length (texts : List String) (ner_model : NERModel) :
    (citSpansListOf texts ner_model).length
      = (otherSpansListOf texts ner_model).length := by
  unfold citSpansListOf otherSpansListOf nerSpansList
  rw [bulk_partition_spans_eq]
  simp

lemma flatRefInput_snd_char (citL : List (List NESpan)) :
    ∀ n j, j ∈ (flatRefInput n citL).map Prod.snd →
      ∃ k, k < citL.length ∧ j = n + k ∧ citL.getD k [] ≠ [] := by
  induction citL with
  | nil => intro n j hj; simp [flatRefInput] at hj
  | cons c cs ih =>
    intro n j hj
    simp only [flatRefInput, List.map_append, List.mem_append] at hj
    rcases hj with h1 | h2
    · rcases List.mem_map.mp h1 with ⟨p, hp, rfl⟩
      rcases List.mem_map.mp hp with ⟨s, hs, rfl⟩
      refine ⟨0, by simp, by simp, ?_⟩
      simp only [List.getD_cons_zero]
      intro hc
      rw [hc] at hs
      simp at hs
    · rcases ih (n + 1) j h2 with ⟨k, hk, hj2, hne⟩
      exact ⟨k + 1, Nat.succ_lt_succ hk, by omega, by simpa using hne⟩

lemma flatRefInput_all_nil (citL : List (List NESpan)) :
    ∀ n, (∀ c ∈ citL, c = []) → flatRefInput n citL = [] := by
  induction citL with
  | nil => intro n _; rfl
  | cons c cs ih =>
    intro n h
    have hc : c = [] := h c (List.mem_cons_self _ _)
    simp [flatRefInput, hc,
      ih (n + 1) (fun x hx => h x (List.mem_cons_of_mem _ hx))]

lemma bulk_logged_log (texts : List String)
    (ner_model ref_part_model : NERModel) :
    (_bulk_get_linker_entities_logged texts ner_model ref_part_model).2
      = [RPCall.bulkPredictAsTuples
          (_ref_part_input (citSpansListOf texts ner_model)) BATCH_SIZE] := by
  unfold _bulk_get_linker_entities_logged
  cases h : _bulk_partition_spans (ner_model.bulk_predict texts
    BATCH_SIZE) with
  | mk cl ol =>
    have hcl : citSpansListOf texts ner_model = cl := by
      unfold citSpansListOf nerSpansList
      rw [h]
    simp [h, hcl]

lemma bulk_get_getD (texts : List String)
    (ner_model ref_part_model : NERModel) (i : Nat)
    (hi : i < (citSpansListOf texts ner_model).length) :
    (_bulk_get_linker_entities texts ner_model ref_part_model).getD i
        ([], [], [])
      = ((citSpansListOf texts ner_model).getD i [],
         rawRefPartSpanMap (rpRawOut texts ner_model ref_part_model) i,
         (otherSpansListOf texts ner_model).getD i []) := by
  rw [bulk_get_eq]
  have hzip : i < ((citSpansListOf texts ner_model).zip
      (otherSpansListOf texts ner_model)).length := by
    rw [List.length_zip, ← cit_other_length, Nat.min_self]
    exact hi
  have hget := enumFrom_map_getD
    ((citSpansListOf texts ner_model).zip (otherSpansListOf texts ner_model))
    (fun p => (p.2.1,
      rawRefPartSpanMap (rpRawOut texts ner_model ref_part_model) p.1,
      p.2.2))
    (([], [])) (([], [], [])) 0 i hzip
  rw [show ((citSpansListOf texts ner_model).zip
      (otherSpansListOf texts ner_model)).enum
    = List.enumFrom 0 ((citSpansListOf texts ner_model).zip
      (otherSpansListOf texts ner_model)) from rfl]
  rw [hget, Nat.zero_add,
    zip_getD _ _ _ _ _ hi (by rw [← cit_other_length]; exact hi)]

/-- C9: when the second-stage output only carries context values that occur
in its input, a text with no citation span receives the empty ref-parts
list (the defaultdict turns an absent index into `[]`) rather than an
error, and when no text has any citation span the second-stage model is
invoked once with the empty input list. -/
theorem claim_C9_no_citation_safety (texts : List String)
    (ner_model ref_part_model : NERModel)
    (hSub : ∀ p ∈ rpRawOut texts ner_model ref_part_model,
      p.2 ∈ (_ref_part_input (citSpansListOf texts ner_model)).map
        Prod.snd) :
    (∀ i, i < (citSpansListOf texts ner_model).length →
      (citSpansListOf texts ner_model).getD i [] = [] →
      (_bulk_get_linker_entities texts ner_model ref_part_model).getD i
          ([], [], [])
        = ((citSpansListOf texts ner_model).getD i [], [],
           (otherSpansListOf texts ner_model).getD i []))
    ∧ ((∀ c ∈ citSpansListOf texts ner_model, c = []) →
        (_bulk_get_linker_entities_logged texts ner_model ref_part_model).2
          = [RPCall.bulkPredictAsTuples [] BATCH_SIZE]) := by
  constructor
  · intro i hi hempty
    rw [bulk_get_getD texts ner_model ref_part_model i hi]
    have hnone : rawRefPartSpanMap (rpRawOut texts ner_model
        ref_part_model) i = [] := by
      apply rawMap_none
      intro p hp heq
      have hin := hSub p hp
      rw [heq, ref_part_input_eq] at hin
      rcases flatRefInput_snd_char _ 0 _ hin with ⟨k, hk, hjk, hne⟩
      have hki : k = i := by omega
      rw [hki, hempty] at hne
      exact hne rfl
    rw [hnone]
  · intro hall
    rw [bulk_logged_log, ref_part_input_eq, flatRefInput_all_nil _ 0 hall]

/-- A JSON value has a key only when it is an object that contains it; this
is the reading of `lacks the key` in the claim. -/
def pyHasKey (d : Py) (key : String) : Bool :=
  match d with
  | Py.dict l => l.any (fun p => p.1 == key)
  | _ => false

/-- C4 (counterexample): the JSON body `5` is truthy and lacks the key
`text`, so the claim requires a 400 response, but the membership test
`"text" in 5` raises a `TypeError`, which the handler propagates. -/
theorem claim_C4_counterexample :
    truthy (Py.int 5) = true
    ∧ pyHasKey (Py.int 5) "text" = false
    ∧ recognize_entities (some (Py.int 5)) [] = HResp.exn
    ∧ recognize_entities (some (Py.int 5)) []
        ≠ HResp.badRequest (handler_outcome.missingMsg "text") := by
  decide

/-- C4 (amended): a handler answers 400 with the missing-key message iff the
body is unparseable, falsy, or truthy with the Python membership test for
the key returning false; a truthy body on which the membership test raises
(numbers, booleans) propagates the exception instead of a 400, and a truthy
dict containing the key but no `lang` key also raises (KeyError), so no
further validation happens. -/
theorem claim_C4_validation (key : String) (data : Option Py)
    (langs : List String) :
    (recognize_entities data langs = handler_outcome "text" data langs)
    ∧ (bulk_recognize_entities data langs = handler_outcome "texts" data langs)
    ∧ ((handler_outcome key data langs
          = HResp.badRequest (handler_outcome.missingMsg key))
        ↔ (data = Option.none
            ∨ ∃ d, data = some d
                ∧ (truthy d = false ∨ pyContains key d = Except.ok false)))
    ∧ (∀ d, data = some d → truthy d = true →
        pyContains key d = Except.error () →
        handler_outcome key data langs = HResp.exn)
    ∧ (∀ l, data = some (Py.dict l) → truthy (Py.dict l) = true →
        (l.any (fun p => p.1 == key)) = true →
        l.lookup "lang" = Option.none →
        handler_outcome key data langs = HResp.exn) := by
  refine ⟨rfl, rfl, ?_, ?_, ?_⟩
  · cases data with
    | none => simp [handler_outcome]
    | some d =>
      cases htr : truthy d with
      | false => simp [handler_outcome, htr]
      | true =>
        cases hpc : pyContains key d with
        | error e =>
          cases e
          simp [handler_outcome, htr, hpc]
        | ok b =>
          cases b with
          | false => simp [handler_outcome, htr, hpc]
          | true =>
            simp only [handler_outcome, htr, Bool.not_true, Bool.false_eq_true,
              if_false, hpc]
            cases hgi : pyGetItem d "lang" with
            | error e2 =>
              cases e2
              simp [hpc, htr]
            | ok lang =>
              cases lang <;> simp [hpc, htr] <;> try (split <;> simp)
  · intro d hd htr hpc
    subst hd
    simp [handler_outcome, htr, hpc]
  · intro l hd htr hany hlk
    subst hd
    simp [handler_outcome, htr, pyContains, hany, pyGetItem, hlk]

/-- C10: the serialized span text appears exactly when the query parameter
equals the string `1`; an absent parameter defaults to the string `0` and
any other value yields false. -/
theorem claim_C10_with_span_text (arg : Option String) (s : NESpan) :
    (parse_with_span_text arg = true ↔ arg = some "1")
    ∧ hasKey (s.serialize (parse_with_span_text arg)) "text"
      = parse_with_span_text arg := by
  constructor
  · unfold parse_with_span_text
    cases arg with
    | none => simp
    | some a => simp
  · exact serialize_has_text_iff s _

/-- Citation span used by the C2 witness models. -/
def spanCit2 : NESpan :=
  { docText := "t", startChar := 0, endChar := 1, label := "מקור" }

/-- Reference-part span used by the C2 witness models. -/
def spanPart2 : NESpan :=
  { docText := "t", startChar := 0, endChar := 1, label := "part" }

/-- First-stage witness model for C2: one citation span per text. -/
def ner2 : NERModel :=
  { predict := fun _ => [],
    bulk_predict := fun ts _ => ts.map (fun _ => [spanCit2]),
    bulk_predict_as_tuples := fun _ _ => [] }

/-- Second-stage witness model for C2: one part list per input pair, with
the context preserved. -/
def rp2 : NERModel :=
  { predict := fun _ => [],
    bulk_predict := fun _ _ => [],
    bulk_predict_as_tuples := fun ps _ => ps.map (fun p => ([spanPart2], p.2)) }

theorem claim_C2_witness :
    (make_bulk_recognize_entities_output ["t"] ner2 rp2 false).results.length
        = (["t"] : List String).length
    ∧ ∀ i, i < (["t"] : List String).length →
      (make_bulk_recognize_entities_output ["t"] ner2 rp2
          false).results.getD i ⟨[]⟩
        = _serialize_linker_entities
            ((citSpansListOf ["t"] ner2).getD i [])
            ((chunksBy (citSpansListOf ["t"] ner2)
                ((rpRawOut ["t"] ner2 rp2).map Prod.fst)).getD i [])
            ((otherSpansListOf ["t"] ner2).getD i [])
            false :=
  claim_C2_bulk_alignment ["t"] ner2 rp2 false rfl rfl (by decide)

/-- Citation span used by the C7 witness models. -/
def spanCit7 : NESpan :=
  { docText := "x", startChar := 0, endChar := 1, label := "Citation" }

/-- The deterministic prediction function of the C7 witness second-stage
model. -/
def R7 : String → List NESpan :=
  fun t => [{ docText := t, startChar := 0, endChar := 0, label := "part" }]

/-- First-stage witness model for C7, consistent between its single and
bulk calls. -/
def ner7 : NERModel :=
  { predict := fun _ => [spanCit7],
    bulk_predict := fun ts _ => ts.map (fun _ => [spanCit7]),
    bulk_predict_as_tuples := fun ps _ => ps.map (fun p => ([], p.2)) }

/-- Second-stage witness model for C7, mapping `R7` in both bulk calls. -/
def rp7 : NERModel :=
  { predict := fun _ => [],
    bulk_predict := fun ts _ => ts.map R7,
    bulk_predict_as_tuples := fun ps _ => ps.map (fun p => (R7 p.1, p.2)) }

theorem claim_C7_witness :
    make_bulk_recognize_entities_output ["x"] ner7 rp7 false
      = { results := [make_recognize_entities_output "x" ner7 rp7 false] } :=
  claim_C7_singleton_equiv "x" ner7 rp7 false rfl
    ⟨R7, fun _ _ => rfl, fun _ _ => rfl⟩

/-- Non-citation span used by the C9 witness models. -/
def spanO9 : NESpan :=
  { docText := "a", startChar := 0, endChar := 1, label := "person" }

/-- First-stage witness model for C9: one non-citation span per text. -/
def ner9 : NERModel :=
  { predict := fun _ => [spanO9],
    bulk_predict := fun ts _ => ts.map (fun _ => [spanO9]),
    bulk_predict_as_tuples := fun _ _ => [] }

/-- Second-stage witness model for C9: empty output everywhere. -/
def rp9 : NERModel :=
  { predict := fun _ => [],
    bulk_predict := fun _ _ => [],
    bulk_predict_as_tuples := fun _ _ => [] }

theorem claim_C9_witness :
    (∀ i, i < (citSpansListOf ["a"] ner9).length →
      (citSpansListOf ["a"] ner9).getD i [] = [] →
      (_bulk_get_linker_entities ["a"] ner9 rp9).getD i ([], [], [])
        = ((citSpansListOf ["a"] ner9).getD i [], [],
           (otherSpansListOf ["a"] ner9).getD i []))
    ∧ ((∀ c ∈ citSpansListOf ["a"] ner9, c = []) →
        (_bulk_get_linker_entities_logged ["a"] ner9 rp9).2
          = [RPCall.bulkPredictAsTuples [] BATCH_SIZE]) :=
  claim_C9_no_citation_safety ["a"] ner9 rp9
    (fun p hp => absurd hp (List.not_mem_nil p))
